import Mathlib

/-!
Verification of the type-inference core of `ts-type-checker-for-video`
(`src/main.ts`), a bidirectional type checker for a small expression
language. The data model and the operations are embedded shallowly:

* `Ty` embeds the TypeScript union `Type = "Number" | "Boolean" |
  { tArg: Type, tRet: Type }`.
* `Context` embeds `Map<string, Type>`; the observable operation of a JS
  `Map` here is `get`, so we model a map as an association list in which
  `extend` prepends and `lookup` returns the most recently added binding
  for a key, exactly the `get` behaviour of `new Map(ctx)` followed by
  `set`.
* Failures (`throw Error(...)` in the source) become `Except TypeError`.
  The three distinguishable error messages of the source become the three
  constructors of `TypeError`: `Unbound variable: x`, `Type mismatch:
  expected a <type>, but got a <type>`, and `Type mismatch: expected a
  function, but got a <type>` (the latter is the `NotAFunction` kind:
  serialized types are always quoted strings or braced objects, never the
  bare word `function`, so the three message families are disjoint).
* `infer` embeds the `infer` dispatcher together with each node class's
  `infer` method, one match arm per expression class, in source order of
  premises; `check` embeds the `check` function. Since the source's
  `check` is `infer` followed by a comparison, the comparison step is
  factored into `checkWith`, and `check ctx e t` is definitionally
  `checkWith t (infer ctx e)`.
-/

/-- The `Type` union of `main.ts`: `"Number" | "Boolean" | { tArg, tRet }`.
(Named `Ty` because `Type` is a Lean sort.) -/
inductive Ty where
  | Number : Ty
  | Boolean : Ty
  | Function (tArg : Ty) (tRet : Ty) : Ty
deriving DecidableEq, Repr

/-- The three error kinds raised by the source (`throw Error(...)`),
distinguished by their message families. -/
inductive TypeError where
  | UnboundVariable (x : String) : TypeError
  | TypeMismatch (expected : Ty) (actual : Ty) : TypeError
  | NotAFunction (actual : Ty) : TypeError
deriving DecidableEq, Repr

/-- `Context = Map<string, Type>`, modelled as an association list where the
most recent binding of a key wins (the `get` behaviour of a JS `Map` after
copy-and-`set`). -/
def Context : Type := List (String × Ty)

instance : EmptyCollection Context := ⟨([] : List (String × Ty))⟩

/-- `lookup(ctx, x)`: look up the type of a variable in the context,
`Unbound variable` error if not found. -/
def lookup (ctx : Context) (x : String) : Except TypeError Ty :=
  match (ctx : List (String × Ty)).find? (fun p => p.1 == x) with
  | some p => .ok p.2
  | none => .error (.UnboundVariable x)

/-- `extend(ctx, x, t)`: immutably extend the context with `x : t`.
The source copies the map and `set`s the copy; prepending yields the same
`get` observations and leaves `ctx` untouched. -/
def extend (ctx : Context) (x : String) (t : Ty) : Context :=
  ((x, t) :: (ctx : List (String × Ty)) : List (String × Ty))

/-- `sameType(t1, t2)`: deep structural equality of types. The source
compares with `===` when either side is a string (a string never `===` an
object, and two strings compare by value) and otherwise recurses on
`tArg`/`tRet`. -/
def sameType : Ty → Ty → Bool
  | .Number, .Number => true
  | .Boolean, .Boolean => true
  | .Function tArg1 tRet1, .Function tArg2 tRet2 =>
      sameType tArg1 tArg2 && sameType tRet1 tRet2
  | _, _ => false

/-- The comparison half of the source's `check`: given the expected type and
the result of inferring the expression, fail with `TypeMismatch` unless the
inferred type is structurally equal to the expected one. -/
def checkWith (expectedType : Ty) (inferred : Except TypeError Ty) :
    Except TypeError Unit :=
  match inferred with
  | .error e => .error e
  | .ok inferredType =>
      if sameType expectedType inferredType then .ok ()
      else .error (.TypeMismatch expectedType inferredType)

/-- The `Expr` node classes of `main.ts`, one constructor per class, with
the class's fields. -/
inductive Expr where
  | Num (num : Int) : Expr
  | Bool (b : Bool) : Expr
  | Var (x : String) : Expr
  | Let (x : String) (e1 : Expr) (e2 : Expr) : Expr
  | Plus (left : Expr) (right : Expr) : Expr
  | Or (left : Expr) (right : Expr) : Expr
  | Eq (left : Expr) (right : Expr) : Expr
  | If (condition : Expr) (thenBranch : Expr) (elseBranch : Expr) : Expr
  | Fun (x : String) (tx : Ty) (body : Expr) : Expr
  | Call (func : Expr) (arg : Expr) : Expr
  | LetFun (f : String) (x : String) (tx : Ty) (tRet : Ty)
      (functionBody : Expr) (letBody : Expr) : Expr
deriving DecidableEq, Repr

/-- `infer(ctx, expr)`: the dispatcher together with each node's `infer`
method; each arm lists its premises in the source's order, and
`checkWith t (infer ctx e)` is the source's `check(ctx, e, t)` call. -/
def infer (ctx : Context) : Expr → Except TypeError Ty
  | .Num _ => .ok .Number
  | .Bool _ => .ok .Boolean
  | .Var x => lookup ctx x
  | .Let x e1 e2 =>
      (infer ctx e1).bind fun t1 =>
        infer (extend ctx x t1) e2
  | .Plus left right =>
      (checkWith .Number (infer ctx left)).bind fun _ =>
        (checkWith .Number (infer ctx right)).bind fun _ =>
          .ok .Number
  | .Or left right =>
      (checkWith .Boolean (infer ctx left)).bind fun _ =>
        (checkWith .Boolean (infer ctx right)).bind fun _ =>
          .ok .Boolean
  | .Eq left right =>
      (infer ctx left).bind fun t =>
        (checkWith t (infer ctx right)).bind fun _ =>
          .ok .Boolean
  | .If condition thenBranch elseBranch =>
      (checkWith .Boolean (infer ctx condition)).bind fun _ =>
        (infer ctx thenBranch).bind fun t =>
          (checkWith t (infer ctx elseBranch)).bind fun _ =>
            .ok t
  | .Fun x tx body =>
      (infer (extend ctx x tx) body).bind fun tBody =>
        .ok (.Function tx tBody)
  | .Call func arg =>
      (infer ctx func).bind fun tFun =>
        match tFun with
        | .Function tArg tRet =>
            (checkWith tArg (infer ctx arg)).bind fun _ => .ok tRet
        | t => .error (.NotAFunction t)
  | .LetFun f x tx tRet functionBody letBody =>
      (checkWith tRet
          (infer (extend (extend ctx f (.Function tx tRet)) x tx)
            functionBody)).bind fun _ =>
        infer (extend ctx f (.Function tx tRet)) letBody

/-- `check(ctx, expr, expectedType)`: assert that the expression has the
expected type; infers and compares via structural equality. -/
def check (ctx : Context) (expr : Expr) (expectedType : Ty) :
    Except TypeError Unit :=
  checkWith expectedType (infer ctx expr)

theorem sameType_iff_eq (t1 t2 : Ty) : sameType t1 t2 = true ↔ t1 = t2 := by
  induction t1 generalizing t2 with
  | Number => cases t2 <;> simp [sameType]
  | Boolean => cases t2 <;> simp [sameType]
  | Function tArg1 tRet1 ihArg ihRet =>
      cases t2 <;> simp [sameType, ihArg, ihRet]

example : infer {} (.Num 42) = .ok .Number := rfl

example : infer {} (.Var "x") = .error (.UnboundVariable "x") := rfl

example :
    infer {} (.Call (.Fun "x" .Number (.Var "x")) (.Bool true)) =
      .error (.TypeMismatch .Number .Boolean) := rfl

/-- C4: `sameType` returns true iff its arguments have the same shape and,
for `Function`s, recursively equal components — i.e. iff the type trees are
equal; in particular two independently constructed `Function` types with
equal components are equal, and two `Function` types with differing result
types are unequal. -/
theorem sameType_structural_spec :
    (∀ t1 t2 : Ty, sameType t1 t2 = true ↔ t1 = t2) ∧
    sameType (.Function .Number .Number) (.Function .Number .Number) = true ∧
    sameType (.Function .Number .Number) (.Function .Number .Boolean) = false :=
  ⟨sameType_iff_eq, rfl, rfl⟩

/-- C5: `extend ctx x t` is total (it returns a `Context`, never an error)
and produces a context equal to `ctx` with `x` bound to `t`: looking up `x`
in the result yields `t`, and looking up any other name yields exactly what
`ctx` yields (so names unbound in `ctx` stay unbound and existing bindings
keep their types; `ctx` itself, being a value, is untouched). -/
theorem extend_spec (ctx : Context) (x : String) (t : Ty) :
    lookup (extend ctx x t) x = .ok t ∧
    (∀ y : String, y ≠ x → lookup (extend ctx x t) y = lookup ctx y) := by
  constructor
  · simp [lookup, extend, List.find?]
  · intro y hy
    have hxy : (x == y) = false := by
      simp [Ne.symm hy]
    simp [lookup, extend, List.find?, hxy]

/-- Witness for C5 at a concrete context, name and type. -/
theorem extend_spec_witness :
    lookup (extend {} "x" .Number) "x" = .ok .Number ∧
    lookup (extend {} "x" .Number) "y" = lookup {} "y" :=
  ⟨(extend_spec {} "x" .Number).1,
   (extend_spec {} "x" .Number).2 "y" (by decide)⟩

/-- C6: let-bindings are lexically scoped with shadowing: the inner binding
of `x` wins in its own body, and a binding made inside the left operand of a
`Plus` is invisible in the sibling right operand, yielding
`UnboundVariable "x"`. -/
theorem let_scoping_spec :
    infer {} (.Let "x" (.Num 5) (.Let "x" (.Bool true) (.Var "x"))) =
      .ok .Boolean ∧
    infer {} (.Plus (.Let "x" (.Num 1) (.Var "x")) (.Var "x")) =
      .error (.UnboundVariable "x") :=
  ⟨rfl, rfl⟩

/-- C7: inferring `Eq(l, r)` infers `l` as `t`, checks `r` against `t`, and
returns `Boolean`, with no restriction on the shape of `t`; in particular
comparing two functions of the same type infers `Boolean`. -/
theorem eq_infer_spec :
    (∀ (ctx : Context) (left right : Expr),
      infer ctx (.Eq left right) =
        (infer ctx left).bind fun t =>
          (check ctx right t).bind fun _ => .ok .Boolean) ∧
    infer {} (.Eq (.Fun "x" .Number (.Var "x")) (.Fun "y" .Number (.Var "y"))) =
      .ok .Boolean :=
  ⟨fun _ _ _ => rfl, rfl⟩

/-- C2: inferring `LetFun(f, x, tx, tRet, body, rest)` checks `body` against
`tRet` under `ctx` extended first with `f : Function(tx, tRet)` and then with
`x : tx`, then infers `rest` under `ctx` extended only with
`f : Function(tx, tRet)` (so `x` is not rebound for `rest`), returning
`rest`'s type; the spec's self-recursion scenario infers `Number`. -/
theorem letFun_infer_spec :
    (∀ (ctx : Context) (f x : String) (tx tRet : Ty) (body rest : Expr),
      infer ctx (.LetFun f x tx tRet body rest) =
        (check (extend (extend ctx f (.Function tx tRet)) x tx) body
            tRet).bind fun _ =>
          infer (extend ctx f (.Function tx tRet)) rest) ∧
    infer {} (.LetFun "f" "x" .Number .Number
        (.If (.Eq (.Var "x") (.Num 10))
          (.Var "x")
          (.Plus (.Var "x") (.Call (.Var "f") (.Plus (.Var "x") (.Num 1)))))
        (.Call (.Var "f") (.Num 8))) = .ok .Number :=
  ⟨fun _ _ _ _ _ _ _ => rfl, rfl⟩

/-- C3: when `e` infers to `t` under `ctx`, `check ctx e expected` compares
`expected` with `t` by structural equality (`sameType`, which coincides with
equality of the type trees) and returns `.ok ()` on success and
`TypeMismatch(expected, t)` on mismatch. -/
theorem check_spec (ctx : Context) (e : Expr) (expected t : Ty)
    (h : infer ctx e = .ok t) :
    check ctx e expected =
      (if sameType expected t then .ok () else
        .error (.TypeMismatch expected t)) ∧
    (sameType expected t = true ↔ expected = t) := by
  constructor
  · simp [check, checkWith, h]
  · exact sameType_iff_eq expected t

/-- Witness for C3: `Bool(true)` infers `Boolean`, so checking it against
`Number` raises `TypeMismatch(Number, Boolean)`. -/
theorem check_spec_witness :
    check {} (.Bool true) .Number =
      (if sameType .Number .Boolean then .ok () else
        .error (.TypeMismatch .Number .Boolean)) :=
  (check_spec {} (.Bool true) .Number .Boolean rfl).1

/-- C1: when the callee of a `Call` infers to a type `t`: if `t` is not a
`Function` shape, inference of the call fails with `NotAFunction t` — a
kind distinct from every `TypeMismatch` — and if `t = Function(tArg, tRet)`,
inference of the call checks the argument against `tArg` and returns
`tRet`. -/
theorem call_infer_spec (ctx : Context) (func arg : Expr) (t : Ty)
    (hf : infer ctx func = .ok t) :
    ((∀ tArg tRet : Ty, t ≠ .Function tArg tRet) →
      infer ctx (.Call func arg) = .error (.NotAFunction t)) ∧
    (∀ tArg tRet : Ty, t = .Function tArg tRet →
      infer ctx (.Call func arg) =
        (check ctx arg tArg).bind fun _ => .ok tRet) ∧
    (∀ (a e1 e2 : Ty), TypeError.NotAFunction a ≠ .TypeMismatch e1 e2) := by
  refine ⟨?_, ?_, ?_⟩
  · intro hnf
    cases t with
    | Number => simp [infer, hf, Except.bind]
    | Boolean => simp [infer, hf, Except.bind]
    | Function tArg tRet => exact absurd rfl (hnf tArg tRet)
  · intro tArg tRet ht
    subst ht
    simp [infer, hf, Except.bind, check]
  · intro a e1 e2 h
    exact TypeError.noConfusion h

/-- Witness for C1: `Num(1)` infers `Number`, which is not a function shape,
so calling it fails with `NotAFunction(Number)`. -/
theorem call_infer_spec_witness :
    infer {} (.Call (.Num 1) (.Num 1)) = .error (.NotAFunction .Number) :=
  (call_infer_spec {} (.Num 1) (.Num 1) .Number rfl).1
    (fun _ _ h => Ty.noConfusion h)

/-- C8: premises are evaluated left-to-right and the first failing premise's
error is the node's result, with no later premise evaluated: for each node
whose first premise fails with `e`, inference returns exactly `e` for every
choice of the remaining children. -/
theorem first_error_spec (ctx : Context) (e : TypeError) :
    (∀ left right, check ctx left .Number = .error e →
      infer ctx (.Plus left right) = .error e) ∧
    (∀ left right, check ctx left .Boolean = .error e →
      infer ctx (.Or left right) = .error e) ∧
    (∀ left right, infer ctx left = .error e →
      infer ctx (.Eq left right) = .error e) ∧
    (∀ c th el, check ctx c .Boolean = .error e →
      infer ctx (.If c th el) = .error e) ∧
    (∀ func arg, infer ctx func = .error e →
      infer ctx (.Call func arg) = .error e) ∧
    (∀ x e1 e2, infer ctx e1 = .error e →
      infer ctx (.Let x e1 e2) = .error e) ∧
    (∀ f x tx tRet body rest,
      check (extend (extend ctx f (.Function tx tRet)) x tx) body tRet =
        .error e →
      infer ctx (.LetFun f x tx tRet body rest) = .error e) := by
  refine ⟨?_, ?_, ?_, ?_, ?_, ?_, ?_⟩
  · intro left right h
    rw [check] at h
    simp [infer, h, Except.bind]
  · intro left right h
    rw [check] at h
    simp [infer, h, Except.bind]
  · intro left right h
    simp [infer, h, Except.bind]
  · intro c th el h
    rw [check] at h
    simp [infer, h, Except.bind]
  · intro func arg h
    simp [infer, h, Except.bind]
  · intro x e1 e2 h
    simp [infer, h, Except.bind]
  · intro f x tx tRet body rest h
    rw [check] at h
    simp [infer, h, Except.bind]

/-- Witness for C8: in `Plus(Bool(true), Var("x"))` under the empty context
the left operand fails its `Number` check with
`TypeMismatch(Number, Boolean)`, and that is the whole node's error even
though the right operand would fail with the different kind
`UnboundVariable("x")`. -/
theorem first_error_spec_witness :
    infer {} (.Plus (.Bool true) (.Var "x")) =
      .error (.TypeMismatch .Number .Boolean) :=
  (first_error_spec {} (.TypeMismatch .Number .Boolean)).1
    (.Bool true) (.Var "x") rfl

/-- C10: in `LetFun` with parameter name equal to function name (`x = f`),
the extension with the parameter is applied after the extension with the
function, so inside `functionBody` the name resolves to the parameter type
`tx` (the function type is shadowed and self-recursion is impossible),
while `letBody` still sees the name bound to `Function(tx, tRet)`;
concretely, a body that calls the shadowed name fails with
`NotAFunction(Number)`, and `letBody` observes the function type. -/
theorem letFun_param_shadowing_spec :
    (∀ (ctx : Context) (f : String) (tx tRet : Ty),
      lookup (extend (extend ctx f (.Function tx tRet)) f tx) f = .ok tx ∧
      lookup (extend ctx f (.Function tx tRet)) f =
        .ok (.Function tx tRet)) ∧
    infer {} (.LetFun "f" "f" .Number .Number
        (.Call (.Var "f") (.Num 1)) (.Num 0)) =
      .error (.NotAFunction .Number) ∧
    infer {} (.LetFun "f" "f" .Number .Number (.Var "f") (.Var "f")) =
      .ok (.Function .Number .Number) := by
  refine ⟨?_, rfl, rfl⟩
  intro ctx f tx tRet
  constructor
  · simp [lookup, extend, List.find?]
  · simp [lookup, extend, List.find?]

/-- The inference judgment of `main.ts` as a relation: `Infers ctx e r`
holds when one run of the source algorithm on `(ctx, e)` can produce the
outcome `r` (a type or an error). Each constructor mirrors one evaluation
path of a node's `infer` method, premises in source order. -/
inductive Infers : Context → Expr → Except TypeError Ty → Prop where
  | num (ctx : Context) (n : Int) : Infers ctx (.Num n) (.ok .Number)
  | bool (ctx : Context) (b : Bool) : Infers ctx (.Bool b) (.ok .Boolean)
  | var (ctx : Context) (x : String) : Infers ctx (.Var x) (lookup ctx x)
  | letErr : ∀ {ctx : Context} {x : String} {e1 e2 : Expr} {er : TypeError},
      Infers ctx e1 (.error er) → Infers ctx (.Let x e1 e2) (.error er)
  | letOk : ∀ {ctx : Context} {x : String} {e1 e2 : Expr} {t1 : Ty}
      {r : Except TypeError Ty},
      Infers ctx e1 (.ok t1) → Infers (extend ctx x t1) e2 r →
      Infers ctx (.Let x e1 e2) r
  | plusErrL : ∀ {ctx : Context} {left right : Expr}
      {rl : Except TypeError Ty} {er : TypeError},
      Infers ctx left rl → checkWith .Number rl = .error er →
      Infers ctx (.Plus left right) (.error er)
  | plusOkL : ∀ {ctx : Context} {left right : Expr}
      {rl rr : Except TypeError Ty},
      Infers ctx left rl → checkWith .Number rl = .ok () →
      Infers ctx right rr →
      Infers ctx (.Plus left right)
        ((checkWith .Number rr).bind fun _ => .ok .Number)
  | orErrL : ∀ {ctx : Context} {left right : Expr}
      {rl : Except TypeError Ty} {er : TypeError},
      Infers ctx left rl → checkWith .Boolean rl = .error er →
      Infers ctx (.Or left right) (.error er)
  | orOkL : ∀ {ctx : Context} {left right : Expr}
      {rl rr : Except TypeError Ty},
      Infers ctx left rl → checkWith .Boolean rl = .ok () →
      Infers ctx right rr →
      Infers ctx (.Or left right)
        ((checkWith .Boolean rr).bind fun _ => .ok .Boolean)
  | eqErrL : ∀ {ctx : Context} {left right : Expr} {er : TypeError},
      Infers ctx left (.error er) → Infers ctx (.Eq left right) (.error er)
  | eqOkL : ∀ {ctx : Context} {left right : Expr} {t : Ty}
      {rr : Except TypeError Ty},
      Infers ctx left (.ok t) → Infers ctx right rr →
      Infers ctx (.Eq left right)
        ((checkWith t rr).bind fun _ => .ok .Boolean)
  | ifErrC : ∀ {ctx : Context} {c th el : Expr}
      {rc : Except TypeError Ty} {er : TypeError},
      Infers ctx c rc → checkWith .Boolean rc = .error er →
      Infers ctx (.If c th el) (.error er)
  | ifErrT : ∀ {ctx : Context} {c th el : Expr}
      {rc : Except TypeError Ty} {er : TypeError},
      Infers ctx c rc → checkWith .Boolean rc = .ok () →
      Infers ctx th (.error er) → Infers ctx (.If c th el) (.error er)
  | ifOkT : ∀ {ctx : Context} {c th el : Expr}
      {rc : Except TypeError Ty} {t : Ty} {rel : Except TypeError Ty},
      Infers ctx c rc → checkWith .Boolean rc = .ok () →
      Infers ctx th (.ok t) → Infers ctx el rel →
      Infers ctx (.If c th el) ((checkWith t rel).bind fun _ => .ok t)
  | fn : ∀ {ctx : Context} {x : String} {tx : Ty} {body : Expr}
      {rb : Except TypeError Ty},
      Infers (extend ctx x tx) body rb →
      Infers ctx (.Fun x tx body)
        (rb.bind fun tBody => .ok (.Function tx tBody))
  | callErrF : ∀ {ctx : Context} {func arg : Expr} {er : TypeError},
      Infers ctx func (.error er) → Infers ctx (.Call func arg) (.error er)
  | callNotFn : ∀ {ctx : Context} {func arg : Expr} {t : Ty},
      Infers ctx func (.ok t) → (∀ tArg tRet : Ty, t ≠ .Function tArg tRet) →
      Infers ctx (.Call func arg) (.error (.NotAFunction t))
  | callFn : ∀ {ctx : Context} {func arg : Expr} {tArg tRet : Ty}
      {ra : Except TypeError Ty},
      Infers ctx func (.ok (.Function tArg tRet)) → Infers ctx arg ra →
      Infers ctx (.Call func arg)
        ((checkWith tArg ra).bind fun _ => .ok tRet)
  | letFunErr : ∀ {ctx : Context} {f x : String} {tx tRet : Ty}
      {body rest : Expr} {rb : Except TypeError Ty} {er : TypeError},
      Infers (extend (extend ctx f (.Function tx tRet)) x tx) body rb →
      checkWith tRet rb = .error er →
      Infers ctx (.LetFun f x tx tRet body rest) (.error er)
  | letFunOk : ∀ {ctx : Context} {f x : String} {tx tRet : Ty}
      {body rest : Expr} {rb : Except TypeError Ty}
      {rr : Except TypeError Ty},
      Infers (extend (extend ctx f (.Function tx tRet)) x tx) body rb →
      checkWith tRet rb = .ok () →
      Infers (extend ctx f (.Function tx tRet)) rest rr →
      Infers ctx (.LetFun f x tx tRet body rest) rr

theorem infers_functional {ctx : Context} {e : Expr}
    {r : Except TypeError Ty} (h : Infers ctx e r) : r = infer ctx e := by
  induction h with
  | num ctx n => rfl
  | bool ctx b => rfl
  | var ctx x => rfl
  | letErr h1 ih1 => simp [infer, ← ih1, Except.bind]
  | letOk h1 h2 ih1 ih2 => rw [ih2]; simp [infer, ← ih1, Except.bind]
  | plusErrL h1 hc ih1 => simp [infer, ← ih1, hc, Except.bind]
  | plusOkL h1 hc h2 ih1 ih2 =>
      rw [ih2]; simp [infer, ← ih1, hc, Except.bind]
  | orErrL h1 hc ih1 => simp [infer, ← ih1, hc, Except.bind]
  | orOkL h1 hc h2 ih1 ih2 =>
      rw [ih2]; simp [infer, ← ih1, hc, Except.bind]
  | eqErrL h1 ih1 => simp [infer, ← ih1, Except.bind]
  | eqOkL h1 h2 ih1 ih2 => rw [ih2]; simp [infer, ← ih1, Except.bind]
  | ifErrC h1 hc ih1 => simp [infer, ← ih1, hc, Except.bind]
  | ifErrT h1 hc h2 ih1 ih2 =>
      simp [infer, ← ih1, hc, ← ih2, Except.bind]
  | ifOkT h1 hc h2 h3 ih1 ih2 ih3 =>
      rw [ih3]; simp [infer, ← ih1, hc, ← ih2, Except.bind]
  | fn h1 ih1 => rw [ih1]; simp [infer]
  | callErrF h1 ih1 => simp [infer, ← ih1, Except.bind]
  | callNotFn h1 hnf ih1 =>
      rename_i t
      cases t with
      | Number => simp [infer, ← ih1, Except.bind]
      | Boolean => simp [infer, ← ih1, Except.bind]
      | Function tArg tRet => exact absurd rfl (hnf tArg tRet)
  | callFn h1 h2 ih1 ih2 => rw [ih2]; simp [infer, ← ih1, Except.bind]
  | letFunErr h1 hc ih1 => simp [infer, ← ih1, hc, Except.bind]
  | letFunOk h1 hc h2 ih1 ih2 =>
      rw [ih2]; simp [infer, ← ih1, hc, Except.bind]

theorem infer_infers (ctx : Context) (e : Expr) :
    Infers ctx e (infer ctx e) := by
  induction e generalizing ctx with
  | Num n => exact .num ctx n
  | Bool b => exact .bool ctx b
  | Var x => exact .var ctx x
  | Let x e1 e2 ih1 ih2 =>
      cases h1 : infer ctx e1 with
      | error er =>
          have heq : infer ctx (.Let x e1 e2) = .error er := by
            simp [infer, h1, Except.bind]
          rw [heq]
          exact .letErr (h1 ▸ ih1 ctx)
      | ok t1 =>
          have heq : infer ctx (.Let x e1 e2) = infer (extend ctx x t1) e2 := by
            simp [infer, h1, Except.bind]
          rw [heq]
          exact .letOk (h1 ▸ ih1 ctx) (ih2 (extend ctx x t1))
  | Plus left right ihl ihr =>
      cases hc : checkWith .Number (infer ctx left) with
      | error er =>
          have heq : infer ctx (.Plus left right) = .error er := by
            simp [infer, hc, Except.bind]
          rw [heq]
          exact .plusErrL (ihl ctx) hc
      | ok u =>
          cases u
          have heq : infer ctx (.Plus left right) =
              (checkWith .Number (infer ctx right)).bind fun _ =>
                .ok .Number := by
            simp [infer, hc, Except.bind]
          rw [heq]
          exact .plusOkL (ihl ctx) hc (ihr ctx)
  | Or left right ihl ihr =>
      cases hc : checkWith .Boolean (infer ctx left) with
      | error er =>
          have heq : infer ctx (.Or left right) = .error er := by
            simp [infer, hc, Except.bind]
          rw [heq]
          exact .orErrL (ihl ctx) hc
      | ok u =>
          cases u
          have heq : infer ctx (.Or left right) =
              (checkWith .Boolean (infer ctx right)).bind fun _ =>
                .ok .Boolean := by
            simp [infer, hc, Except.bind]
          rw [heq]
          exact .orOkL (ihl ctx) hc (ihr ctx)
  | Eq left right ihl ihr =>
      cases hl : infer ctx left with
      | error er =>
          have heq : infer ctx (.Eq left right) = .error er := by
            simp [infer, hl, Except.bind]
          rw [heq]
          exact .eqErrL (hl ▸ ihl ctx)
      | ok t =>
          have heq : infer ctx (.Eq left right) =
              (checkWith t (infer ctx right)).bind fun _ => .ok .Boolean := by
            simp [infer, hl, Except.bind]
          rw [heq]
          exact .eqOkL (hl ▸ ihl ctx) (ihr ctx)
  | If c th el ihc ihth ihel =>
      cases hc : checkWith .Boolean (infer ctx c) with
      | error er =>
          have heq : infer ctx (.If c th el) = .error er := by
            simp [infer, hc, Except.bind]
          rw [heq]
          exact .ifErrC (ihc ctx) hc
      | ok u =>
          cases u
          cases hth : infer ctx th with
          | error er =>
              have heq : infer ctx (.If c th el) = .error er := by
                simp [infer, hc, hth, Except.bind]
              rw [heq]
              exact .ifErrT (ihc ctx) hc (hth ▸ ihth ctx)
          | ok t =>
              have heq : infer ctx (.If c th el) =
                  (checkWith t (infer ctx el)).bind fun _ => .ok t := by
                simp [infer, hc, hth, Except.bind]
              rw [heq]
              exact .ifOkT (ihc ctx) hc (hth ▸ ihth ctx) (ihel ctx)
  | Fun x tx body ih =>
      exact .fn (ih (extend ctx x tx))
  | Call func arg ihf iha =>
      cases hf : infer ctx func with
      | error er =>
          have heq : infer ctx (.Call func arg) = .error er := by
            simp [infer, hf, Except.bind]
          rw [heq]
          exact .callErrF (hf ▸ ihf ctx)
      | ok t =>
          cases t with
          | Function tArg tRet =>
              have heq : infer ctx (.Call func arg) =
                  (checkWith tArg (infer ctx arg)).bind fun _ => .ok tRet := by
                simp [infer, hf, Except.bind]
              rw [heq]
              exact .callFn (hf ▸ ihf ctx) (iha ctx)
          | Number =>
              have heq : infer ctx (.Call func arg) =
                  .error (.NotAFunction .Number) := by
                simp [infer, hf, Except.bind]
              rw [heq]
              exact .callNotFn (hf ▸ ihf ctx) (fun _ _ h => Ty.noConfusion h)
          | Boolean =>
              have heq : infer ctx (.Call func arg) =
                  .error (.NotAFunction .Boolean) := by
                simp [infer, hf, Except.bind]
              rw [heq]
              exact .callNotFn (hf ▸ ihf ctx) (fun _ _ h => Ty.noConfusion h)
  | LetFun f x tx tRet body rest ihb ihr =>
      cases hc : checkWith tRet
          (infer (extend (extend ctx f (.Function tx tRet)) x tx) body) with
      | error er =>
          have heq : infer ctx (.LetFun f x tx tRet body rest) = .error er := by
            simp [infer, hc, Except.bind]
          rw [heq]
          exact .letFunErr (ihb (extend (extend ctx f (.Function tx tRet)) x tx)) hc
      | ok u =>
          cases u
          have heq : infer ctx (.LetFun f x tx tRet body rest) =
              infer (extend ctx f (.Function tx tRet)) rest := by
            simp [infer, hc, Except.bind]
          rw [heq]
          exact .letFunOk
            (ihb (extend (extend ctx f (.Function tx tRet)) x tx)) hc
            (ihr (extend ctx f (.Function tx tRet)))

/-- C9: inference is deterministic and pure: every call of `infer` produces
an outcome derivable in the `Infers` judgment, and the judgment relates each
`(ctx, e)` pair to at most one outcome — so any two runs of `infer` on the
same context and expression yield the same type or the same error, a
function of only the expression tree and the initial context. -/
theorem infer_deterministic_spec :
    (∀ (ctx : Context) (e : Expr), Infers ctx e (infer ctx e)) ∧
    (∀ (ctx : Context) (e : Expr) (r1 r2 : Except TypeError Ty),
      Infers ctx e r1 → Infers ctx e r2 → r1 = r2) :=
  ⟨infer_infers, fun _ _ _ _ h1 h2 =>
    (infers_functional h1).trans (infers_functional h2).symm⟩

/-- Witness for C9 at a concrete context and expression. -/
theorem infer_deterministic_spec_witness :
    Infers {} (.Num 0) (infer {} (.Num 0)) ∧
    (Except.ok Ty.Number : Except TypeError Ty) = .ok .Number :=
  ⟨infer_deterministic_spec.1 {} (.Num 0),
   infer_deterministic_spec.2 {} (.Num 0) _ _ (.num {} 0) (.num {} 0)⟩
